import Mathlib

set_option maxHeartbeats 1000000

set_option maxRecDepth 8000

/-!
Shallow embedding of the per-URL pipeline of `web_researcher.py`
(repository `LoveJustice/trafficking_news`).

External effects (browser rendering, HTTP, the LLM backend, the record
store) are modelled as oracles: each function takes the outcomes the
environment would produce and returns its value together with the list of
observable events (LLM queries, store writes) it performs, mirroring the
Python control flow statement by statement.
-/

/-- Models Python `str.strip()`: drop whitespace from both ends.  Defined by
structural recursion over the character list (the library `String.trim` is
not kernel-reducible). -/
def pyStrip (s : String) : String :=
  String.mk (((s.data.dropWhile Char.isWhitespace).reverse.dropWhile Char.isWhitespace).reverse)

/-- Models Python `str.lower()` on the ASCII answers compared in the source
("yes" / "no").  Structural recursion over the character list. -/
def pyLower (s : String) : String := String.mk (s.data.map Char.toLower)

/-- Parsed shape of the JSON replies validated in `web_researcher.py`
(`IncidentResponse`, `SuspectResponse`, `VictimResponse` from `models.py`,
whose fields are read as `response_data.answer` and `response_data.evidence`
against the prompt contract `{"answer": "yes"|"no", "evidence": [...]|null}`). -/
structure ChatAnswer where
  answer : String
  evidence : Option (List String)
  deriving DecidableEq

/-- Outcome of one iteration of the `try` block in `get_validated_response`
(`web_researcher.py` lines 314-332), one constructor per `except` arm:

* `ok d` - `chat_engine.chat` returned and `model_validate_json` produced `d`;
* `jsonError` - a `json.JSONDecodeError` was raised;
* `requestError` - a `requests.exceptions.RequestException` was raised;
* `rateLimit` - some other exception whose text contains
  `"429 Too Many Requests"` was raised;
* `otherError` - some other exception not containing that text was raised. -/
inductive ChatOutcome where
  | ok (data : ChatAnswer)
  | jsonError
  | requestError
  | rateLimit
  | otherError
  deriving DecidableEq

/-- The `base_delay = 5` of `get_validated_response`. -/
def base_delay : Nat := 5

/-- The `max_retries = 5` of `get_validated_response`. -/
def max_retries : Nat := 5

/-- Observable trace of one `get_validated_response` call: how many
`chat_engine.chat` attempts were made, and the attempt indices at which the
rate-limit backoff sleep was executed (in order). -/
structure GVRTrace where
  attempts : Nat
  rateSleeps : List Nat
  deriving DecidableEq

/-- Pre-jitter backoff delay slept at a given attempt index:
`base_delay * (2 ** attempt)` (line 327; the executed sleep additionally adds
`random.uniform(0, 1)` jitter to this value). -/
def pre_jitter_delay (attempt : Nat) : Nat := base_delay * 2 ^ attempt

/-- Loop body of `get_validated_response` (lines 314-332): `attempt` is the
current loop index, `fuel` the remaining iterations of
`for attempt in range(max_retries)`.  `ok`/`jsonError` and non-rate-limit
`otherError` return immediately; `requestError` is logged and falls through
to the next iteration (no `return`, no sleep); `rateLimit` sleeps with
exponential backoff and continues. -/
def gvrAux (o : Nat → ChatOutcome) : Nat → Nat → Option ChatAnswer × GVRTrace
  | _, 0 => (none, ⟨0, []⟩)
  | attempt, fuel + 1 =>
    match o attempt with
    | .ok d => (some d, ⟨1, []⟩)
    | .jsonError => (none, ⟨1, []⟩)
    | .otherError => (none, ⟨1, []⟩)
    | .requestError =>
        let r := gvrAux o (attempt + 1) fuel
        (r.1, ⟨r.2.attempts + 1, r.2.rateSleeps⟩)
    | .rateLimit =>
        let r := gvrAux o (attempt + 1) fuel
        (r.1, ⟨r.2.attempts + 1, attempt :: r.2.rateSleeps⟩)

/-- `get_validated_response` (lines 308-334): runs the attempt loop from
attempt 0 with `max_retries` iterations; falling off the loop returns `None`. -/
def get_validated_response (o : Nat → ChatOutcome) : Option ChatAnswer × GVRTrace :=
  gvrAux o 0 max_retries

/-- The `MIN_TEXT_LENGTH = 100` threshold (line 57). -/
def MIN_TEXT_LENGTH : Nat := 100

/-- Environment outcome of the text-acquisition part of an extraction tier:
either the raw text the tier machinery produced (before `.strip()`), or an
exception somewhere in the tier. -/
inductive TierOutcome where
  | ok (raw : String)
  | err
  deriving DecidableEq

/-- Environment outcome of the `requests.get` tier: the HTTP status code and
the text that the readability + BeautifulSoup chain would extract from the
body (before `.strip()`), or an exception. -/
inductive HttpOutcome where
  | response (status : Nat) (raw : String)
  | exc
  deriving DecidableEq

/-- `extract_with_newspaper` (lines 109-123): on success strip the article
text and keep it only when its length is at least `MIN_TEXT_LENGTH`;
otherwise, and on any exception, return `""`. -/
def extract_with_newspaper (o : TierOutcome) : String :=
  match o with
  | .ok raw =>
      let text := pyStrip raw
      if MIN_TEXT_LENGTH ≤ text.length then text else ""
  | .err => ""

/-- `extract_with_readability` (lines 125-150): a non-200 status fails the
tier; otherwise strip the readability-extracted text and apply the same
length threshold; any exception yields `""`. -/
def extract_with_readability (o : HttpOutcome) : String :=
  match o with
  | .response status raw =>
      if status ≠ 200 then ""
      else
        let text := pyStrip raw
        if MIN_TEXT_LENGTH ≤ text.length then text else ""
  | .exc => ""

/-- `extract_with_selenium` (lines 152-179): strip the readability-extracted
text of the rendered page and apply the same length threshold; any exception
yields `""`. -/
def extract_with_selenium (o : TierOutcome) : String :=
  match o with
  | .ok raw =>
      let text := pyStrip raw
      if MIN_TEXT_LENGTH ≤ text.length then text else ""
  | .err => ""

/-- Environment outcomes for the three extraction tiers of one URL. -/
structure ExtractOracle where
  newspaper : TierOutcome
  readability : HttpOutcome
  selenium : TierOutcome
  deriving DecidableEq

/-- One strategy of the extraction fallback chain. -/
inductive Tier where
  | newspaper
  | readability
  | selenium
  deriving DecidableEq

/-- `extract_main_text` (lines 181-195) instrumented with the list of tiers
actually invoked: try newspaper, fall back to readability, finally selenium;
a tier's non-empty result (Python string truthiness) is returned at once. -/
def extract_main_text_t (o : ExtractOracle) : String × List Tier :=
  let text := extract_with_newspaper o.newspaper
  if text ≠ "" then (text, [Tier.newspaper])
  else
    let text := extract_with_readability o.readability
    if text ≠ "" then (text, [Tier.newspaper, Tier.readability])
    else (extract_with_selenium o.selenium, [Tier.newspaper, Tier.readability, Tier.selenium])

/-- `extract_main_text` value alone (lines 181-195). -/
def extract_main_text (o : ExtractOracle) : String :=
  (extract_main_text_t o).1

/-- Environment outcome of the reachability probe body (lines 270-275):
either the page rendered and `driver.title` is the given string, or some
exception was raised inside the `try`. -/
inductive ProbeOutcome where
  | loaded (title : String)
  | exc
  deriving DecidableEq

/-- `is_url_accessible` (lines 260-278): success is a non-empty rendered
title; any exception is `False`. -/
def is_url_accessible (o : ProbeOutcome) : Bool :=
  match o with
  | .loaded title => title ≠ ""
  | .exc => false

/-- Environment outcome of one `driver.get` attempt inside
`fetch_url_with_retries`. -/
inductive FetchOutcome where
  | ok
  | timeout
  | webdriverExc
  deriving DecidableEq

/-- Loop body of `fetch_url_with_retries` (lines 282-293): success returns
`True`; a `TimeoutException` sleeps `retry_delay` and retries; a
`WebDriverException` breaks out of the loop.  Returns the result together
with the number of `driver.get` attempts made. -/
def fetchAux (o : Nat → FetchOutcome) : Nat → Nat → Bool × Nat
  | _, 0 => (false, 0)
  | attempt, fuel + 1 =>
    match o attempt with
    | .ok => (true, 1)
    | .webdriverExc => (false, 1)
    | .timeout =>
        let r := fetchAux o (attempt + 1) fuel
        (r.1, r.2 + 1)

/-- `fetch_url_with_retries` (lines 280-295) with `max_retries = 3`:
attempts are numbered from 1 as in `range(1, max_retries + 1)`. -/
def fetch_url_with_retries (o : Nat → FetchOutcome) : Bool × Nat :=
  fetchAux o 1 3

/-- The record dict inserted by `db.insert_url` (`process_url`,
lines 561-608). -/
structure UrlRecord where
  url : String
  domain_name : String
  source : String
  content : String
  actual_incident : Int
  accessible : Nat
  deriving DecidableEq

/-- Observable events of one URL's processing: the reachability probe, each
`driver.get` attempt of the load-with-retry step, the invocation of
`extract_main_text`, each LLM query issued (keyed by prompt), and each store
write. -/
inductive Event where
  | probe (url : String)
  | fetchAttempt (url : String)
  | extractText (url : String)
  | chat (promptKey : String)
  | dbUpdateField (url : String) (field : String) (value : Int)
  | dbInsertUrl (rec : UrlRecord)
  | dbInsertIncident (url_id : Option Nat) (incident : String)
  | dbInsertSuspect (url_id : Option Nat) (name : String)
  | dbInsertVictim (url_id : Option Nat) (name : String)
  | dbInsertSuspectForm (url_id : Option Nat) (name : String)
  | dbInsertVictimForm (url_id : Option Nat) (name : String)
  deriving DecidableEq

/-- `verify_incident` (lines 336-366): one validated incident query.  The
result starts as `{"actual_incident": -2}`; a `None` response keeps `-2`;
answer `"no"` records 0 via `db.update_field`; answer `"yes"` records 1 and
takes `evidence or []` as the incident list; any other answer keeps `-2`.
Each chat attempt of the underlying `get_validated_response` call is one
`chat "incident_prompt"` event. -/
def verify_incident (url : String) (o : Nat → ChatOutcome) :
    Int × List String × List Event :=
  let r := get_validated_response o
  let chatEvents := List.replicate r.2.attempts (Event.chat "incident_prompt")
  match r.1 with
  | none => (-2, [], chatEvents)
  | some d =>
      if pyLower d.answer = "no" then
        (0, [], chatEvents ++ [Event.dbUpdateField url "actual_incident" 0])
      else if pyLower d.answer = "yes" then
        (1, d.evidence.getD [], chatEvents ++ [Event.dbUpdateField url "actual_incident" 1])
      else
        (-2, [], chatEvents)

/-- Environment outcome of the single-shot `llm.complete` confirmation call
in `confirm_natural_name`: either a reply that validated as
`ConfirmResponse` with the given `answer` field, or any exception raised in
the `try` (transport failure, validation failure). -/
inductive ConfirmOutcome where
  | ok (answer : String)
  | exc
  deriving DecidableEq

/-- `confirm_natural_name` (lines 368-384): `True` exactly when the call
succeeded and the validated answer lowercases to `"yes"`; every failure path
returns `False`. -/
def confirm_natural_name (o : ConfirmOutcome) : Bool :=
  match o with
  | .ok answer => pyLower answer = "yes"
  | .exc => false

/-- Environment for one URL's processing: one constructor argument per
external call the Python code makes.  The `Raises` fields model the record
store raising (`DatabaseError` / connectivity) on the corresponding insert;
all other store calls are modelled as non-raising.  `engineOk` models
whether the chat-engine construction (lines 611-622: document indexing and
`as_chat_engine`, which call the embedding backend) succeeds. -/
structure UrlOracle where
  probe : ProbeOutcome
  fetch : Nat → FetchOutcome
  tiers : ExtractOracle
  engineOk : Bool
  incident : Nat → ChatOutcome
  suspects : Nat → ChatOutcome
  victims : Nat → ChatOutcome
  confirmO : String → ConfirmOutcome
  suspectFormOk : String → Bool
  victimFormOk : String → Bool
  getUrlId : String → Option Nat
  insertUrlRaises : Bool
  insertSuspectRaises : String → Bool
  insertVictimRaises : String → Bool
  domain : String

/-- `populate_suspect_forms_table` (lines 497-547): one chat query for the
form prompt; `suspectFormOk` folds the success of the chat call, the JSON
parse and the schema validation; on success the form row is inserted unless
`get_url_id` found no record (the `url_id is None` early return).  Any
failure is caught inside the function. -/
def populate_suspect_forms_table (url : String) (suspect : String) (o : UrlOracle) :
    List Event :=
  Event.chat "suspect_form_prompt" ::
    (if o.suspectFormOk suspect then
      match o.getUrlId url with
      | none => []
      | some uid => [Event.dbInsertSuspectForm (some uid) suspect]
    else [])

/-- `populate_victim_forms_table` (lines 455-495), same shape as the suspect
form population. -/
def populate_victim_forms_table (url : String) (victim : String) (o : UrlOracle) :
    List Event :=
  Event.chat "victim_form_prompt" ::
    (if o.victimFormOk victim then
      match o.getUrlId url with
      | none => []
      | some uid => [Event.dbInsertVictimForm (some uid) victim]
    else [])

/-- Per-suspect body of the `for suspect in suspects` loop in
`upload_suspects` (lines 403-416): the confirmation query always runs; when
it affirms, `insert_suspect` is attempted (a `DatabaseError` is caught and
only suppresses the row) and the form population is attempted regardless of
the insert's outcome; otherwise the name is skipped. -/
def suspectLoopBody (url : String) (uid : Option Nat) (o : UrlOracle) (s : String) :
    List Event :=
  Event.chat "confirm_prompt" ::
    (if confirm_natural_name (o.confirmO s) then
      (if o.insertSuspectRaises s then [] else [Event.dbInsertSuspect uid s]) ++
        populate_suspect_forms_table url s o
    else [])

/-- `upload_suspects` (lines 386-418): one validated suspect query; on a
`None` response or a non-"yes" answer nothing further happens; on "yes" the
candidate list `evidence or []` is traversed with `suspectLoopBody`. -/
def upload_suspects (url : String) (o : UrlOracle) : List Event :=
  let r := get_validated_response o.suspects
  let ev := List.replicate r.2.attempts (Event.chat "suspect_prompt")
  match r.1 with
  | none => ev
  | some d =>
      if pyLower d.answer = "yes" then
        ev ++ (d.evidence.getD []).flatMap (suspectLoopBody url (o.getUrlId url) o)
      else ev

/-- Per-victim body of the `for victim in victims` loop in `upload_victims`
(lines 437-449), same gating as the suspect loop. -/
def victimLoopBody (url : String) (uid : Option Nat) (o : UrlOracle) (v : String) :
    List Event :=
  Event.chat "confirm_prompt" ::
    (if confirm_natural_name (o.confirmO v) then
      (if o.insertVictimRaises v then [] else [Event.dbInsertVictim uid v]) ++
        populate_victim_forms_table url v o
    else [])

/-- `upload_victims` (lines 420-453): one validated victim query; on "yes"
the candidate list is traversed with `victimLoopBody`. -/
def upload_victims (url : String) (o : UrlOracle) : List Event :=
  let r := get_validated_response o.victims
  let ev := List.replicate r.2.attempts (Event.chat "victim_prompt")
  match r.1 with
  | none => ev
  | some d =>
      if pyLower d.answer = "yes" then
        ev ++ (d.evidence.getD []).flatMap (victimLoopBody url (o.getUrlId url) o)
      else ev

/-- The negative record dict built in the three early-return branches of
`process_url` (lines 561-568, 576-583, 590-597). -/
def negativeRecord (url domain : String) : UrlRecord :=
  { url := url, domain_name := domain, source := "google_search",
    content := "", actual_incident := -1, accessible := 0 }

/-- `process_url` (lines 551-636).  `Except.error` is an uncaught exception
escaping `process_url` (the only modelled one: `db.insert_url` raising in an
early-return branch, where the call is outside any `try`); its payload is
the events performed before the raise.  In the verification branch every
exception (engine construction, `insert_url` at line 625) is caught by the
`except` at line 633, so processing of that URL ends normally. -/
def process_url (url : String) (o : UrlOracle) : Except (List Event) (List Event) :=
  let probeEv := [Event.probe url]
  if ¬ is_url_accessible o.probe then
    if o.insertUrlRaises then Except.error probeEv
    else Except.ok (probeEv ++ [Event.dbInsertUrl (negativeRecord url o.domain)])
  else
    let f := fetch_url_with_retries o.fetch
    let fetchEv := List.replicate f.2 (Event.fetchAttempt url)
    if ¬ f.1 then
      if o.insertUrlRaises then Except.error (probeEv ++ fetchEv)
      else Except.ok (probeEv ++ fetchEv ++ [Event.dbInsertUrl (negativeRecord url o.domain)])
    else
      let text := extract_main_text o.tiers
      let exEv := [Event.extractText url]
      if text = "" then
        if o.insertUrlRaises then Except.error (probeEv ++ fetchEv ++ exEv)
        else Except.ok (probeEv ++ fetchEv ++ exEv ++
          [Event.dbInsertUrl (negativeRecord url o.domain)])
      else
        if ¬ o.engineOk then Except.ok (probeEv ++ fetchEv ++ exEv)
        else
          let v := verify_incident url o.incident
          let rec0 : UrlRecord :=
            { url := url, domain_name := o.domain, source := "google_search",
              content := text, actual_incident := v.1, accessible := 1 }
          if o.insertUrlRaises then Except.ok (probeEv ++ fetchEv ++ exEv ++ v.2.2)
          else
            let insEv := [Event.dbInsertUrl rec0]
            if v.1 = 1 then
              Except.ok (probeEv ++ fetchEv ++ exEv ++ v.2.2 ++ insEv ++
                (v.2.1.map (Event.dbInsertIncident (o.getUrlId url))) ++
                upload_suspects url o ++ upload_victims url o)
            else Except.ok (probeEv ++ fetchEv ++ exEv ++ v.2.2 ++ insEv)

/-- Events performed while processing one URL, whether or not an uncaught
exception ended the processing. -/
def traceOf (url : String) (o : UrlOracle) : List Event :=
  match process_url url o with
  | .ok ev => ev
  | .error ev => ev

/-- Result of one orchestrator run: the URLs whose processing was started
(in loop order), the concatenated event trace, and whether an uncaught
exception aborted the loop. -/
structure RunResult where
  processed : List String
  events : List Event
  aborted : Bool
  deriving DecidableEq

/-- The `for url in urls: process_url(url, db, driver)` loop of `main`
(lines 656-657).  `main` has no try/except around `process_url`, so an
uncaught exception from it terminates the loop. -/
def runLoop (oracles : String → UrlOracle) : List String → RunResult
  | [] => ⟨[], [], false⟩
  | url :: rest =>
    match process_url url (oracles url) with
    | .error ev => ⟨[url], ev, true⟩
    | .ok ev =>
        let r := runLoop oracles rest
        ⟨url :: r.processed, ev ++ r.events, r.aborted⟩

/-- URLs of the `insert_url` writes in a trace: the URL set added to the
store by a run. -/
def insertedUrls (evs : List Event) : List String :=
  evs.filterMap (fun e =>
    match e with
    | .dbInsertUrl r => some r.url
    | _ => none)

/-- The worklist computation of `main` (lines 642-649) and `get_new_urls`
(lines 297-304): `list(set(urls_from_files) - set(urls_from_db))`, modelled
as the deduplicated file URLs not contained in the store's URL list. -/
def new_urls (files : List String) (store : List String) : List String :=
  files.dedup.filter (fun u => ¬ store.contains u)

/-- One orchestrator run (`main`, lines 640-660) over a store holding the
given URL set: compute the worklist by set-difference, run the per-URL loop,
and return the run result together with the store's URL set afterwards. -/
def runMain (files : List String) (store : List String) (oracles : String → UrlOracle) :
    RunResult × List String :=
  let r := runLoop oracles (new_urls files store)
  (r, store ++ insertedUrls r.events)

/-- State of the referential-consistency scan over a write trace: whether the
UrlRecord insert has happened, whether any person (suspect or victim) row has
been written, and the person names written so far. -/
structure ScanState where
  urlSeen : Bool
  personSeen : Bool
  suspectsSeen : List String
  victimsSeen : List String
  deriving DecidableEq

/-- One step of the consistency scan.  A child row is admissible only when
its parents are already present: incident and person rows need the UrlRecord
(and incidents must precede all person rows), a form row needs a previously
written person row of the same kind and name.  Non-write events are ignored. -/
def scanEvent (st : ScanState) (e : Event) : Option ScanState :=
  match e with
  | .dbInsertUrl _ => some { st with urlSeen := true }
  | .dbInsertIncident _ _ =>
      if st.urlSeen ∧ ¬ st.personSeen then some st else none
  | .dbInsertSuspect _ n =>
      if st.urlSeen then some { st with personSeen := true, suspectsSeen := n :: st.suspectsSeen }
      else none
  | .dbInsertVictim _ n =>
      if st.urlSeen then some { st with personSeen := true, victimsSeen := n :: st.victimsSeen }
      else none
  | .dbInsertSuspectForm _ n => if st.suspectsSeen.contains n then some st else none
  | .dbInsertVictimForm _ n => if st.victimsSeen.contains n then some st else none
  | _ => some st

/-- Run the consistency scan from a state over a trace. -/
def scanList (st : ScanState) : List Event → Option ScanState
  | [] => some st
  | e :: rest =>
      match scanEvent st e with
      | none => none
      | some st2 => scanList st2 rest

/-- A trace is write-consistent when the scan accepts every event from the
initial state; by construction this also accepts every prefix of the trace,
so truncating the write sequence anywhere leaves no orphaned child row. -/
def consistentTrace (evs : List Event) : Bool :=
  (scanList ⟨false, false, [], []⟩ evs).isSome

/-- Phase number of a persistence row write in the ordering asserted by the
specification: UrlRecord 0, Incident 1, Suspect and Victim rows 2, Form rows
3; non-row events have no phase. -/
def writePhase : Event → Option Nat
  | .dbInsertUrl _ => some 0
  | .dbInsertIncident _ _ => some 1
  | .dbInsertSuspect _ _ => some 2
  | .dbInsertVictim _ _ => some 2
  | .dbInsertSuspectForm _ _ => some 3
  | .dbInsertVictimForm _ _ => some 3
  | _ => none

/-- Boolean test that a list of phase numbers is non-decreasing. -/
def nondecreasing : List Nat → Bool
  | [] => true
  | [_] => true
  | a :: b :: t => (decide (a ≤ b)) && nondecreasing (b :: t)

/-- Boolean test that a list of naturals is strictly increasing. -/
def strictlyIncreasing : List Nat → Bool
  | [] => true
  | [_] => true
  | a :: b :: t => (decide (a < b)) && strictlyIncreasing (b :: t)

/-- Helper: under an always-rate-limited backend the attempt loop consumes
all its fuel, sleeping at every attempt index, and yields `None`. -/
theorem gvrAux_allRateLimit (o : Nat → ChatOutcome)
    (h : ∀ i, o i = ChatOutcome.rateLimit) :
    ∀ fuel attempt, gvrAux o attempt fuel = (none, ⟨fuel, List.range' attempt fuel⟩) := by
  intro fuel
  induction fuel with
  | zero => intro attempt; rfl
  | succ n ih =>
      intro attempt
      simp only [gvrAux, h attempt, ih (attempt + 1), List.range']

/-- Helper: under an always-request-erroring backend the attempt loop
consumes all its fuel without any backoff sleep and yields `None`. -/
theorem gvrAux_allRequestError (o : Nat → ChatOutcome)
    (h : ∀ i, o i = ChatOutcome.requestError) :
    ∀ fuel attempt, gvrAux o attempt fuel = (none, ⟨fuel, []⟩) := by
  intro fuel
  induction fuel with
  | zero => intro attempt; rfl
  | succ n ih =>
      intro attempt
      simp only [gvrAux, h attempt, ih (attempt + 1)]

/-- C3: when the chat backend signals a rate-limit condition on every
attempt, `get_validated_response` makes exactly 5 attempts, sleeps once per
attempt with pre-jitter delay `base_delay * 2 ^ attempt` (the executed sleep
adds `random.uniform(0, 1)` jitter on top), the pre-jitter delays
5, 10, 20, 40, 80 are strictly increasing across attempts, and the call
returns `None`. -/
theorem C3_rate_limit_retry_cap (o : Nat → ChatOutcome)
    (h : ∀ i, o i = ChatOutcome.rateLimit) :
    (get_validated_response o).1 = none ∧
    (get_validated_response o).2.attempts = 5 ∧
    (get_validated_response o).2.rateSleeps.map pre_jitter_delay = [5, 10, 20, 40, 80] ∧
    strictlyIncreasing ((get_validated_response o).2.rateSleeps.map pre_jitter_delay) = true := by
  have hgvr : get_validated_response o = (none, ⟨5, List.range' 0 5⟩) :=
    gvrAux_allRateLimit o h 5 0
  rw [hgvr]
  refine ⟨rfl, rfl, by decide, by decide⟩

/-- Witness for C3 at the constant rate-limited backend. -/
theorem C3_rate_limit_retry_cap_witness :
    (get_validated_response (fun _ => ChatOutcome.rateLimit)).1 = none ∧
    (get_validated_response (fun _ => ChatOutcome.rateLimit)).2.attempts = 5 ∧
    (get_validated_response (fun _ => ChatOutcome.rateLimit)).2.rateSleeps.map pre_jitter_delay
      = [5, 10, 20, 40, 80] ∧
    strictlyIncreasing
      ((get_validated_response (fun _ => ChatOutcome.rateLimit)).2.rateSleeps.map pre_jitter_delay)
      = true :=
  C3_rate_limit_retry_cap (fun _ => ChatOutcome.rateLimit) (fun _ => rfl)

/-- A backend whose first attempt raises a transport (request) error and
whose second attempt returns a valid reply. -/
def requestErrorThenOk : Nat → ChatOutcome := fun i =>
  if i = 0 then ChatOutcome.requestError else ChatOutcome.ok ⟨"yes", none⟩

/-- C4 counterexample: a transport (request) error is not terminal.  On a
call whose first attempt raises `requests.exceptions.RequestException` and
whose second attempt succeeds, `get_validated_response` makes a second
attempt and returns the validated reply, not `None` after a single failed
attempt as the claim states. -/
theorem C4_counterexample_request_error_retries :
    (get_validated_response requestErrorThenOk).2.attempts = 2 ∧
    (get_validated_response requestErrorThenOk).1 = some ⟨"yes", none⟩ ∧
    ¬ ((get_validated_response requestErrorThenOk).1 = none ∧
       (get_validated_response requestErrorThenOk).2.attempts = 1) := by
  decide

/-- C4 as amended: malformed JSON (a `json.JSONDecodeError`) and any other
non-rate-limit exception are terminal for the call - `None` is returned
after that single attempt with no further attempt and no backoff sleep -
but a transport (request) error is retried without sleeping: if every
attempt raises one, the call returns `None` only after exhausting all 5
attempts. -/
theorem C4_terminal_failures (o : Nat → ChatOutcome) :
    (o 0 = ChatOutcome.jsonError → get_validated_response o = (none, ⟨1, []⟩)) ∧
    (o 0 = ChatOutcome.otherError → get_validated_response o = (none, ⟨1, []⟩)) ∧
    ((∀ i, o i = ChatOutcome.requestError) → get_validated_response o = (none, ⟨5, []⟩)) := by
  refine ⟨fun h => ?_, fun h => ?_, fun h => gvrAux_allRequestError o h 5 0⟩
  · show gvrAux o 0 (4 + 1) = (none, ⟨1, []⟩)
    simp only [gvrAux, h]
  · show gvrAux o 0 (4 + 1) = (none, ⟨1, []⟩)
    simp only [gvrAux, h]

/-- Witness for C4 as amended, at a constant `jsonError` backend, a constant
`otherError` backend, and a constant `requestError` backend. -/
theorem C4_terminal_failures_witness :
    get_validated_response (fun _ => ChatOutcome.jsonError) = (none, ⟨1, []⟩) ∧
    get_validated_response (fun _ => ChatOutcome.otherError) = (none, ⟨1, []⟩) ∧
    get_validated_response (fun _ => ChatOutcome.requestError) = (none, ⟨5, []⟩) :=
  ⟨(C4_terminal_failures (fun _ => ChatOutcome.jsonError)).1 rfl,
   (C4_terminal_failures (fun _ => ChatOutcome.otherError)).2.1 rfl,
   (C4_terminal_failures (fun _ => ChatOutcome.requestError)).2.2 (fun _ => rfl)⟩

/-- Helper: when the newspaper tier's output is non-empty it is returned at
once and only that tier is invoked. -/
theorem emt_tier1 (o : ExtractOracle) (h : extract_with_newspaper o.newspaper ≠ "") :
    extract_main_text_t o = (extract_with_newspaper o.newspaper, [Tier.newspaper]) := by
  simp only [extract_main_text_t, if_pos h]

/-- Helper: when the newspaper tier fails and the readability tier's output
is non-empty, the latter is returned and the selenium tier is not invoked. -/
theorem emt_tier2 (o : ExtractOracle) (h1 : extract_with_newspaper o.newspaper = "")
    (h2 : extract_with_readability o.readability ≠ "") :
    extract_main_text_t o
      = (extract_with_readability o.readability, [Tier.newspaper, Tier.readability]) := by
  simp only [extract_main_text_t, h1, if_pos h2]
  simp

/-- Helper: when the first two tiers fail, the selenium tier's output is
returned. -/
theorem emt_tier3 (o : ExtractOracle) (h1 : extract_with_newspaper o.newspaper = "")
    (h2 : extract_with_readability o.readability = "") :
    extract_main_text_t o = (extract_with_selenium o.selenium,
      [Tier.newspaper, Tier.readability, Tier.selenium]) := by
  simp only [extract_main_text_t, h1, h2]
  simp

/-- C5: the three extraction tiers are tried in the fixed order newspaper,
readability, selenium; the engine returns the first tier output that is
non-empty (a tier's output is non-empty exactly when its stripped text
reaches `MIN_TEXT_LENGTH`) without invoking any later tier, and returns `""`
when all three tiers fail.  In particular, when tier 1 produces stripped
text below the threshold and tier 2 gets a 200 response whose stripped text
is at or above it, the result is tier 2's output and the selenium tier is
never invoked. -/
theorem C5_extraction_fallback_order (o : ExtractOracle) :
    (extract_with_newspaper o.newspaper ≠ "" →
      extract_main_text_t o = (extract_with_newspaper o.newspaper, [Tier.newspaper])) ∧
    (extract_with_newspaper o.newspaper = "" →
      extract_with_readability o.readability ≠ "" →
      extract_main_text_t o
        = (extract_with_readability o.readability, [Tier.newspaper, Tier.readability])) ∧
    (extract_with_newspaper o.newspaper = "" →
      extract_with_readability o.readability = "" →
      extract_main_text_t o = (extract_with_selenium o.selenium,
        [Tier.newspaper, Tier.readability, Tier.selenium])) ∧
    (extract_with_newspaper o.newspaper = "" →
      extract_with_readability o.readability = "" →
      extract_with_selenium o.selenium = "" →
      extract_main_text o = "") ∧
    (∀ raw, o.newspaper = TierOutcome.ok raw →
      MIN_TEXT_LENGTH ≤ (pyStrip raw).length →
      extract_main_text o = pyStrip raw) ∧
    (∀ raw1 raw2, o.newspaper = TierOutcome.ok raw1 →
      (pyStrip raw1).length < MIN_TEXT_LENGTH →
      o.readability = HttpOutcome.response 200 raw2 →
      MIN_TEXT_LENGTH ≤ (pyStrip raw2).length →
      extract_main_text o = pyStrip raw2 ∧
      extract_main_text o = extract_with_readability o.readability ∧
      Tier.selenium ∉ (extract_main_text_t o).2) := by
  refine ⟨emt_tier1 o, emt_tier2 o, emt_tier3 o, fun h1 h2 h3 => ?_,
    fun raw hn hlen => ?_, fun raw1 raw2 hn hlt hr hge => ?_⟩
  · show (extract_main_text_t o).1 = ""
    rw [emt_tier3 o h1 h2]
    exact h3
  · have h1 : extract_with_newspaper o.newspaper = pyStrip raw := by
      simp only [extract_with_newspaper, hn, if_pos hlen]
    have hne0 : pyStrip raw ≠ "" := by
      intro hc
      rw [hc] at hlen
      exact absurd hlen (by decide)
    have hne : extract_with_newspaper o.newspaper ≠ "" :=
      fun hc => hne0 (h1.symm.trans hc)
    show (extract_main_text_t o).1 = pyStrip raw
    rw [emt_tier1 o hne]
    exact h1
  · have h1 : extract_with_newspaper o.newspaper = "" := by
      simp only [extract_with_newspaper, hn, if_neg (Nat.not_le_of_lt hlt)]
    have h2 : extract_with_readability o.readability = pyStrip raw2 := by
      simp only [extract_with_readability, hr, if_pos hge]
      simp
    have hne0 : pyStrip raw2 ≠ "" := by
      intro hc
      rw [hc] at hge
      exact absurd hge (by decide)
    have hne : extract_with_readability o.readability ≠ "" :=
      fun hc => hne0 (h2.symm.trans hc)
    have hmain : (extract_main_text_t o).1 = pyStrip raw2 := by
      rw [emt_tier2 o h1 hne]
      exact h2
    refine ⟨hmain, by rw [show extract_main_text o = (extract_main_text_t o).1 from rfl, hmain, h2],
      ?_⟩
    rw [emt_tier2 o h1 hne]
    simp

/-- A raw article text of 120 characters used as a concrete above-threshold
tier output. -/
def longText : String := String.mk (List.replicate 120 'b')

/-- Tier outcomes where the newspaper tier yields short text and the
readability tier yields a 200 response with above-threshold text. -/
def tier2Oracle : ExtractOracle :=
  { newspaper := TierOutcome.ok "too short"
    readability := HttpOutcome.response 200 longText
    selenium := TierOutcome.err }

/-- Witness for C5: on `tier2Oracle` the engine returns tier 2's output and
never invokes the selenium tier. -/
theorem C5_extraction_fallback_order_witness :
    extract_main_text tier2Oracle = pyStrip longText ∧
    extract_main_text tier2Oracle = extract_with_readability tier2Oracle.readability ∧
    Tier.selenium ∉ (extract_main_text_t tier2Oracle).2 :=
  (C5_extraction_fallback_order tier2Oracle).2.2.2.2.2 "too short" longText rfl
    (by decide) rfl (by decide)

/-- Helper: when every load attempt times out, `fetchAux` consumes all its
fuel and fails. -/
theorem fetchAux_allTimeout (o : Nat → FetchOutcome)
    (h : ∀ i, o i = FetchOutcome.timeout) :
    ∀ fuel attempt, fetchAux o attempt fuel = (false, fuel) := by
  intro fuel
  induction fuel with
  | zero => intro attempt; rfl
  | succ n ih => intro attempt; simp only [fetchAux, h attempt, ih (attempt + 1)]

/-- C6: when the reachability probe fails (empty rendered title or any
exception) and the store accepts the insert, `process_url` performs exactly
the probe and one `insert_url` of the record with `accessible=0`,
`actual_incident=-1`, `content=""`; it creates no Incident, Suspect or
Victim rows, attempts no text extraction and issues no LLM query. -/
theorem C6_probe_negative_short_circuit (url : String) (o : UrlOracle)
    (hprobe : is_url_accessible o.probe = false)
    (hdb : o.insertUrlRaises = false) :
    process_url url o = Except.ok [Event.probe url,
      Event.dbInsertUrl (negativeRecord url o.domain)] ∧
    (negativeRecord url o.domain).accessible = 0 ∧
    (negativeRecord url o.domain).actual_incident = -1 ∧
    (negativeRecord url o.domain).content = "" ∧
    insertedUrls (traceOf url o) = [url] ∧
    Event.extractText url ∉ traceOf url o ∧
    (∀ k, Event.chat k ∉ traceOf url o) ∧
    (∀ uid i, Event.dbInsertIncident uid i ∉ traceOf url o) ∧
    (∀ uid n, Event.dbInsertSuspect uid n ∉ traceOf url o) ∧
    (∀ uid n, Event.dbInsertVictim uid n ∉ traceOf url o) ∧
    (∀ uid n, Event.dbInsertSuspectForm uid n ∉ traceOf url o) ∧
    (∀ uid n, Event.dbInsertVictimForm uid n ∉ traceOf url o) := by
  have hp : process_url url o = Except.ok [Event.probe url,
      Event.dbInsertUrl (negativeRecord url o.domain)] := by
    simp [process_url, hprobe, hdb]
  have ht : traceOf url o = [Event.probe url,
      Event.dbInsertUrl (negativeRecord url o.domain)] := by
    simp only [traceOf, hp]
  refine ⟨hp, rfl, rfl, rfl, ?_, ?_, ?_, ?_, ?_, ?_, ?_, ?_⟩ <;>
    simp [ht, insertedUrls, negativeRecord]

/-- An oracle whose probe raises and whose store accepts inserts. -/
def probeFailOracle : UrlOracle :=
  { probe := ProbeOutcome.exc
    fetch := fun _ => FetchOutcome.ok
    tiers := { newspaper := TierOutcome.err, readability := HttpOutcome.exc,
               selenium := TierOutcome.err }
    engineOk := true
    incident := fun _ => ChatOutcome.otherError
    suspects := fun _ => ChatOutcome.otherError
    victims := fun _ => ChatOutcome.otherError
    confirmO := fun _ => ConfirmOutcome.exc
    suspectFormOk := fun _ => false
    victimFormOk := fun _ => false
    getUrlId := fun _ => none
    insertUrlRaises := false
    insertSuspectRaises := fun _ => false
    insertVictimRaises := fun _ => false
    domain := "example" }

/-- Witness for C6 at a probe that raises. -/
theorem C6_probe_negative_short_circuit_witness :
    process_url "u" probeFailOracle = Except.ok [Event.probe "u",
      Event.dbInsertUrl (negativeRecord "u" probeFailOracle.domain)] ∧
    Event.extractText "u" ∉ traceOf "u" probeFailOracle ∧
    Event.chat "incident_prompt" ∉ traceOf "u" probeFailOracle :=
  have h := C6_probe_negative_short_circuit "u" probeFailOracle rfl rfl
  ⟨h.1, h.2.2.2.2.2.1, h.2.2.2.2.2.2.1 "incident_prompt"⟩

/-- C10: when the probe passes but either the page loads and all three
extraction tiers fail (`extract_main_text` returns `""`) or the
load-with-retry step exhausts its retries on timeouts, the persisted record
is the same negative shape with `accessible=0` - not `accessible=1` -
`content=""` and `actual_incident=-1`. -/
theorem C10_failed_extraction_negative_record (url : String) (o : UrlOracle)
    (hprobe : is_url_accessible o.probe = true)
    (hdb : o.insertUrlRaises = false) :
    ((fetch_url_with_retries o.fetch).1 = true →
      extract_main_text o.tiers = "" →
      process_url url o = Except.ok ([Event.probe url] ++
        List.replicate (fetch_url_with_retries o.fetch).2 (Event.fetchAttempt url) ++
        [Event.extractText url, Event.dbInsertUrl (negativeRecord url o.domain)])) ∧
    ((∀ i, o.fetch i = FetchOutcome.timeout) →
      process_url url o = Except.ok ([Event.probe url] ++
        List.replicate 3 (Event.fetchAttempt url) ++
        [Event.dbInsertUrl (negativeRecord url o.domain)])) ∧
    (negativeRecord url o.domain).accessible = 0 ∧
    (negativeRecord url o.domain).accessible ≠ 1 ∧
    (negativeRecord url o.domain).actual_incident = -1 ∧
    (negativeRecord url o.domain).content = "" := by
  refine ⟨fun hf hx => ?_, fun hf => ?_, rfl, by simp [negativeRecord], rfl, rfl⟩
  · simp [process_url, hprobe, hdb, hf, hx]
  · have hfr : fetch_url_with_retries o.fetch = (false, 3) :=
      fetchAux_allTimeout o.fetch hf 3 1
    simp [process_url, hprobe, hdb, hfr]

/-- An oracle whose probe succeeds and whose load attempts always time out. -/
def timeoutOracle : UrlOracle :=
  { probeFailOracle with probe := ProbeOutcome.loaded "Title",
                         fetch := fun _ => FetchOutcome.timeout }

/-- An oracle whose probe succeeds, whose load succeeds, and whose three
extraction tiers all fail. -/
def noTextOracle : UrlOracle :=
  { probeFailOracle with probe := ProbeOutcome.loaded "Title" }

/-- Witness for C10 at a timing-out loader and at an all-tiers-failing
extraction. -/
theorem C10_failed_extraction_negative_record_witness :
    process_url "u" timeoutOracle = Except.ok ([Event.probe "u"] ++
      List.replicate 3 (Event.fetchAttempt "u") ++
      [Event.dbInsertUrl (negativeRecord "u" timeoutOracle.domain)]) ∧
    process_url "u" noTextOracle = Except.ok ([Event.probe "u"] ++
      List.replicate (fetch_url_with_retries noTextOracle.fetch).2 (Event.fetchAttempt "u") ++
      [Event.extractText "u", Event.dbInsertUrl (negativeRecord "u" noTextOracle.domain)]) :=
  ⟨(C10_failed_extraction_negative_record "u" timeoutOracle (by decide) rfl).2.1
      (fun _ => rfl),
   (C10_failed_extraction_negative_record "u" noTextOracle (by decide) rfl).1
      (by decide) (by decide)⟩

/-- Helper: every event of `verify_incident` is the incident query itself or
an `update_field` write of the `actual_incident` verdict; in particular the
verification step issues no suspect or victim query and writes no row. -/
theorem verify_incident_mem (url : String) (o : Nat → ChatOutcome) (e : Event)
    (he : e ∈ (verify_incident url o).2.2) :
    e = Event.chat "incident_prompt" ∨
    e = Event.dbUpdateField url "actual_incident" 0 ∨
    e = Event.dbUpdateField url "actual_incident" 1 := by
  rcases hgvr : (get_validated_response o).1 with _ | d
  · simp only [verify_incident, hgvr] at he
    simp only [List.mem_replicate] at he
    exact Or.inl he.2
  · simp only [verify_incident, hgvr] at he
    by_cases hno : pyLower d.answer = "no"
    · simp only [if_pos hno, List.mem_append, List.mem_replicate, List.mem_singleton] at he
      rcases he with he | he
      · exact Or.inl he.2
      · exact Or.inr (Or.inl he)
    · by_cases hyes : pyLower d.answer = "yes"
      · simp only [if_neg hno, if_pos hyes, List.mem_append, List.mem_replicate,
          List.mem_singleton] at he
        rcases he with he | he
        · exact Or.inl he.2
        · exact Or.inr (Or.inr he)
      · simp only [if_neg hno, if_neg hyes, List.mem_replicate] at he
        exact Or.inl he.2

/-- Helper: a verdict of 1 is always recorded through `db.update_field`
before `verify_incident` returns. -/
theorem verify_incident_one_recorded (url : String) (o : Nat → ChatOutcome)
    (h : (verify_incident url o).1 = 1) :
    Event.dbUpdateField url "actual_incident" 1 ∈ (verify_incident url o).2.2 := by
  rcases hgvr : (get_validated_response o).1 with _ | d
  · simp only [verify_incident, hgvr] at h
    exact absurd h (by decide)
  · by_cases hno : pyLower d.answer = "no"
    · simp only [verify_incident, hgvr, if_pos hno] at h
      exact absurd h (by decide)
    · by_cases hyes : pyLower d.answer = "yes"
      · simp only [verify_incident, hgvr, if_neg hno, if_pos hyes, List.mem_append,
          List.mem_singleton]
        simp
      · simp only [verify_incident, hgvr, if_neg hno, if_neg hyes] at h
        exact absurd h (by decide)

/-- Helper: when the incident query yields no valid response or an answer
other than "yes", the verdict is the terminal negative 0 or the unresolved
-2. -/
theorem verify_incident_not_yes (url : String) (o : Nat → ChatOutcome)
    (h : (get_validated_response o).1 = none ∨
      ∃ d, (get_validated_response o).1 = some d ∧ pyLower d.answer ≠ "yes") :
    (verify_incident url o).1 = 0 ∨ (verify_incident url o).1 = -2 := by
  rcases h with hnone | ⟨d, hd, hne⟩
  · simp only [verify_incident, hnone]
    simp
  · by_cases hno : pyLower d.answer = "no"
    · simp only [verify_incident, hd, if_pos hno]
      simp
    · simp only [verify_incident, hd, if_neg hno, if_neg hne]
      simp

/-- Helper: every event of one suspect's loop body is the confirmation
query, or - only when the confirmation affirmed - the suspect row insert,
the form query, or the form row insert for that name. -/
theorem suspectLoopBody_mem (url : String) (uid : Option Nat) (o : UrlOracle) (s : String)
    (e : Event) (he : e ∈ suspectLoopBody url uid o s) :
    e = Event.chat "confirm_prompt" ∨
    (confirm_natural_name (o.confirmO s) = true ∧
      (e = Event.dbInsertSuspect uid s ∨ e = Event.chat "suspect_form_prompt" ∨
       ∃ u2, e = Event.dbInsertSuspectForm (some u2) s)) := by
  by_cases hc : confirm_natural_name (o.confirmO s) = true
  · simp only [suspectLoopBody, populate_suspect_forms_table, if_pos hc, List.mem_cons,
      List.mem_append] at he
    rcases he with he | he | he
    · exact Or.inl he
    · refine Or.inr ⟨hc, ?_⟩
      by_cases hr : o.insertSuspectRaises s = true
      · simp [hr] at he
      · simp only [Bool.not_eq_true] at hr
        simp [hr] at he
        exact Or.inl he
    · rcases he with he | he
      · exact Or.inr ⟨hc, Or.inr (Or.inl he)⟩
      · refine Or.inr ⟨hc, Or.inr (Or.inr ?_)⟩
        by_cases hf : o.suspectFormOk s = true
        · rcases hg : o.getUrlId url with _ | u2
          · simp [hf, hg] at he
          · simp only [hf, if_true, hg, List.mem_singleton] at he
            exact ⟨u2, he⟩
        · simp only [Bool.not_eq_true] at hf
          simp [hf] at he
  · simp only [Bool.not_eq_true] at hc
    simp [suspectLoopBody, hc] at he
    exact Or.inl he

/-- Helper: every event of one victim's loop body is the confirmation query,
or - only when the confirmation affirmed - the victim row insert, the form
query, or the form row insert for that name. -/
theorem victimLoopBody_mem (url : String) (uid : Option Nat) (o : UrlOracle) (v : String)
    (e : Event) (he : e ∈ victimLoopBody url uid o v) :
    e = Event.chat "confirm_prompt" ∨
    (confirm_natural_name (o.confirmO v) = true ∧
      (e = Event.dbInsertVictim uid v ∨ e = Event.chat "victim_form_prompt" ∨
       ∃ u2, e = Event.dbInsertVictimForm (some u2) v)) := by
  by_cases hc : confirm_natural_name (o.confirmO v) = true
  · simp only [victimLoopBody, populate_victim_forms_table, if_pos hc, List.mem_cons,
      List.mem_append] at he
    rcases he with he | he | he
    · exact Or.inl he
    · refine Or.inr ⟨hc, ?_⟩
      by_cases hr : o.insertVictimRaises v = true
      · simp [hr] at he
      · simp only [Bool.not_eq_true] at hr
        simp [hr] at he
        exact Or.inl he
    · rcases he with he | he
      · exact Or.inr ⟨hc, Or.inr (Or.inl he)⟩
      · refine Or.inr ⟨hc, Or.inr (Or.inr ?_)⟩
        by_cases hf : o.victimFormOk v = true
        · rcases hg : o.getUrlId url with _ | u2
          · simp [hf, hg] at he
          · simp only [hf, if_true, hg, List.mem_singleton] at he
            exact ⟨u2, he⟩
        · simp only [Bool.not_eq_true] at hf
          simp [hf] at he
  · simp only [Bool.not_eq_true] at hc
    simp [victimLoopBody, hc] at he
    exact Or.inl he

/-- Helper: every event of `upload_suspects` is the suspect query or belongs
to some candidate name's loop body. -/
theorem upload_suspects_mem (url : String) (o : UrlOracle) (e : Event)
    (he : e ∈ upload_suspects url o) :
    e = Event.chat "suspect_prompt" ∨
    ∃ s, e ∈ suspectLoopBody url (o.getUrlId url) o s := by
  rcases hgvr : (get_validated_response o.suspects).1 with _ | d
  · simp only [upload_suspects, hgvr, List.mem_replicate] at he
    exact Or.inl he.2
  · by_cases hyes : pyLower d.answer = "yes"
    · simp only [upload_suspects, hgvr, if_pos hyes, List.mem_append, List.mem_replicate,
        List.mem_flatMap] at he
      rcases he with he | ⟨s, _, hs⟩
      · exact Or.inl he.2
      · exact Or.inr ⟨s, hs⟩
    · simp only [upload_suspects, hgvr, if_neg hyes, List.mem_replicate] at he
      exact Or.inl he.2

/-- Helper: every event of `upload_victims` is the victim query or belongs
to some candidate name's loop body. -/
theorem upload_victims_mem (url : String) (o : UrlOracle) (e : Event)
    (he : e ∈ upload_victims url o) :
    e = Event.chat "victim_prompt" ∨
    ∃ v, e ∈ victimLoopBody url (o.getUrlId url) o v := by
  rcases hgvr : (get_validated_response o.victims).1 with _ | d
  · simp only [upload_victims, hgvr, List.mem_replicate] at he
    exact Or.inl he.2
  · by_cases hyes : pyLower d.answer = "yes"
    · simp only [upload_victims, hgvr, if_pos hyes, List.mem_append, List.mem_replicate,
        List.mem_flatMap] at he
      rcases he with he | ⟨v, _, hv⟩
      · exact Or.inl he.2
      · exact Or.inr ⟨v, hv⟩
    · simp only [upload_victims, hgvr, if_neg hyes, List.mem_replicate] at he
      exact Or.inl he.2

/-- Helper: the verification step never issues a suspect or victim query. -/
theorem verify_incident_no_sv_chat (url : String) (o : Nat → ChatOutcome) :
    Event.chat "suspect_prompt" ∉ (verify_incident url o).2.2 ∧
    Event.chat "victim_prompt" ∉ (verify_incident url o).2.2 := by
  constructor <;> intro hm <;>
    rcases verify_incident_mem url o _ hm with h | h | h <;> simp at h

/-- Helper: the verification step writes no row of any table. -/
theorem verify_incident_no_rows (url : String) (o : Nat → ChatOutcome) :
    (∀ rec, Event.dbInsertUrl rec ∉ (verify_incident url o).2.2) ∧
    (∀ uid i, Event.dbInsertIncident uid i ∉ (verify_incident url o).2.2) ∧
    (∀ uid n, Event.dbInsertSuspect uid n ∉ (verify_incident url o).2.2) ∧
    (∀ uid n, Event.dbInsertVictim uid n ∉ (verify_incident url o).2.2) ∧
    (∀ uid n, Event.dbInsertSuspectForm uid n ∉ (verify_incident url o).2.2) ∧
    (∀ uid n, Event.dbInsertVictimForm uid n ∉ (verify_incident url o).2.2) := by
  refine ⟨fun rec hm => ?_, fun uid i hm => ?_, fun uid n hm => ?_, fun uid n hm => ?_,
    fun uid n hm => ?_, fun uid n hm => ?_⟩ <;>
    rcases verify_incident_mem url o _ hm with h | h | h <;> simp at h

/-- The record dict built on the full verification path (lines 601-608,
with `actual_incident` updated from the verification verdict at line 624). -/
def verifiedRecord (url : String) (o : UrlOracle) : UrlRecord :=
  { url := url, domain_name := o.domain, source := "google_search",
    content := extract_main_text o.tiers,
    actual_incident := (verify_incident url o.incident).1, accessible := 1 }

/-- Helper: on the full verification path the trace of `process_url` is the
probe, the load attempts, the extraction, the verification events, the
record insert, and - exactly when the verdict is 1 - the incident inserts
followed by the suspect upload and the victim upload. -/
theorem traceOf_verify_path (url : String) (o : UrlOracle)
    (hacc : is_url_accessible o.probe = true)
    (hf : (fetch_url_with_retries o.fetch).1 = true)
    (hx : extract_main_text o.tiers ≠ "")
    (he : o.engineOk = true)
    (hr : o.insertUrlRaises = false) :
    traceOf url o =
      [Event.probe url] ++
      List.replicate (fetch_url_with_retries o.fetch).2 (Event.fetchAttempt url) ++
      [Event.extractText url] ++ (verify_incident url o.incident).2.2 ++
      [Event.dbInsertUrl (verifiedRecord url o)] ++
      (if (verify_incident url o.incident).1 = 1 then
        ((verify_incident url o.incident).2.1.map (Event.dbInsertIncident (o.getUrlId url))) ++
          upload_suspects url o ++ upload_victims url o
      else []) := by
  by_cases hai : (verify_incident url o.incident).1 = 1
  · simp [traceOf, process_url, verifiedRecord, hacc, hf, hx, he, hr, hai]
  · simp [traceOf, process_url, verifiedRecord, hacc, hf, hx, he, hr, hai]

/-- C1: suspect and victim extraction queries are issued only after incident
verification has recorded `actual_incident = 1` via `db.update_field`; and
whenever the URL reaches verification but the incident query answers "no" or
yields no valid response, the URL's record is persisted with the terminal
negative 0 or unresolved -2 verdict and no incident, suspect, victim or form
row is created for that URL, nor is any suspect or victim query issued. -/
theorem C1_incident_gating (url : String) (o : UrlOracle) :
    ((Event.chat "suspect_prompt" ∈ traceOf url o ∨
      Event.chat "victim_prompt" ∈ traceOf url o) →
      Event.dbUpdateField url "actual_incident" 1 ∈ traceOf url o) ∧
    (is_url_accessible o.probe = true →
      (fetch_url_with_retries o.fetch).1 = true →
      extract_main_text o.tiers ≠ "" →
      o.engineOk = true →
      o.insertUrlRaises = false →
      ((get_validated_response o.incident).1 = none ∨
        ∃ d, (get_validated_response o.incident).1 = some d ∧ pyLower d.answer ≠ "yes") →
      ((∃ rec : UrlRecord, Event.dbInsertUrl rec ∈ traceOf url o ∧ rec.url = url ∧
          (rec.actual_incident = 0 ∨ rec.actual_incident = -2)) ∧
        (∀ uid i, Event.dbInsertIncident uid i ∉ traceOf url o) ∧
        (∀ uid n, Event.dbInsertSuspect uid n ∉ traceOf url o) ∧
        (∀ uid n, Event.dbInsertVictim uid n ∉ traceOf url o) ∧
        (∀ uid n, Event.dbInsertSuspectForm uid n ∉ traceOf url o) ∧
        (∀ uid n, Event.dbInsertVictimForm uid n ∉ traceOf url o) ∧
        Event.chat "suspect_prompt" ∉ traceOf url o ∧
        Event.chat "victim_prompt" ∉ traceOf url o)) := by
  constructor
  · intro hchat
    cases hacc : is_url_accessible o.probe with
    | false =>
        exfalso
        cases hr : o.insertUrlRaises <;>
          simp [traceOf, process_url, hacc, hr, List.mem_replicate] at hchat
    | true =>
    cases hf : (fetch_url_with_retries o.fetch).1 with
    | false =>
        exfalso
        cases hr : o.insertUrlRaises <;>
          simp [traceOf, process_url, hacc, hf, hr, List.mem_replicate] at hchat
    | true =>
    by_cases hx : extract_main_text o.tiers = ""
    · exfalso
      cases hr : o.insertUrlRaises <;>
        simp [traceOf, process_url, hacc, hf, hx, hr, List.mem_replicate] at hchat
    · cases he : o.engineOk with
      | false =>
          exfalso
          simp [traceOf, process_url, hacc, hf, hx, he, List.mem_replicate] at hchat
      | true =>
      cases hr : o.insertUrlRaises with
      | true =>
          exfalso
          simp [traceOf, process_url, hacc, hf, hx, he, hr, List.mem_append,
            List.mem_replicate] at hchat
          rcases hchat with hc | hc
          · exact (verify_incident_no_sv_chat url o.incident).1 hc
          · exact (verify_incident_no_sv_chat url o.incident).2 hc
      | false =>
      have htr := traceOf_verify_path url o hacc hf hx he hr
      by_cases hai : (verify_incident url o.incident).1 = 1
      · have hupd := verify_incident_one_recorded url o.incident hai
        rw [htr]
        simp only [List.mem_append]
        exact Or.inl (Or.inl (Or.inr hupd))
      · exfalso
        rw [htr] at hchat
        simp only [if_neg hai, List.append_nil, List.mem_append, List.mem_replicate,
          List.mem_singleton] at hchat
        rcases hchat with hc | hc <;>
        · rcases hc with ((((h | h) | h) | h) | h) <;>
            first
            | (exact (verify_incident_no_sv_chat url o.incident).1 h)
            | (exact (verify_incident_no_sv_chat url o.incident).2 h)
            | simp at h
  · intro hacc hf hx he hr hnot
    have hai : (verify_incident url o.incident).1 = 0 ∨
        (verify_incident url o.incident).1 = -2 :=
      verify_incident_not_yes url o.incident hnot
    have hai1 : ¬ (verify_incident url o.incident).1 = 1 := by
      rcases hai with h | h <;> rw [h] <;> decide
    have htr := traceOf_verify_path url o hacc hf hx he hr
    rw [if_neg hai1, List.append_nil] at htr
    refine ⟨⟨verifiedRecord url o, ?_, rfl, hai⟩, ?_, ?_, ?_, ?_, ?_, ?_, ?_⟩
    · rw [htr]
      simp [List.mem_append]
    all_goals
      first
      | (intro uid n hmem
         rw [htr] at hmem
         simp only [List.mem_append, List.mem_replicate, List.mem_singleton] at hmem
         rcases hmem with (((h | h) | h) | h) | h <;>
           first
           | simp at h
           | (rcases verify_incident_mem url o.incident _ h with h2 | h2 | h2 <;> simp at h2))
      | (intro hmem
         rw [htr] at hmem
         simp only [List.mem_append, List.mem_replicate, List.mem_singleton] at hmem
         rcases hmem with (((h | h) | h) | h) | h <;>
           first
           | simp at h
           | (rcases verify_incident_mem url o.incident _ h with h2 | h2 | h2 <;> simp at h2))

/-- An environment in which the URL is reachable, loads, yields
above-threshold text, and the incident, suspect and confirmation queries all
answer yes. -/
def yesPathOracle : UrlOracle :=
  { probe := ProbeOutcome.loaded "Title"
    fetch := fun _ => FetchOutcome.ok
    tiers := { newspaper := TierOutcome.ok longText, readability := HttpOutcome.exc,
               selenium := TierOutcome.err }
    engineOk := true
    incident := fun _ => ChatOutcome.ok ⟨"yes", some ["raid on warehouse"]⟩
    suspects := fun _ => ChatOutcome.ok ⟨"yes", some ["John Doe"]⟩
    victims := fun _ => ChatOutcome.ok ⟨"no", none⟩
    confirmO := fun _ => ConfirmOutcome.ok "yes"
    suspectFormOk := fun _ => true
    victimFormOk := fun _ => true
    getUrlId := fun _ => some 1
    insertUrlRaises := false
    insertSuspectRaises := fun _ => false
    insertVictimRaises := fun _ => false
    domain := "example" }

/-- The same environment except that the incident query answers "no". -/
def noAnswerOracle : UrlOracle :=
  { yesPathOracle with incident := fun _ => ChatOutcome.ok ⟨"no", none⟩ }

/-- Witness for C1: in the yes environment the suspect query is issued and
the verdict 1 was recorded first; in the "no" environment the record is
persisted with verdict 0 or -2. -/
theorem C1_incident_gating_witness :
    Event.dbUpdateField "u" "actual_incident" 1 ∈ traceOf "u" yesPathOracle ∧
    (∃ rec : UrlRecord, Event.dbInsertUrl rec ∈ traceOf "u" noAnswerOracle ∧ rec.url = "u" ∧
      (rec.actual_incident = 0 ∨ rec.actual_incident = -2)) :=
  ⟨(C1_incident_gating "u" yesPathOracle).1 (Or.inl (by decide)),
   ((C1_incident_gating "u" noAnswerOracle).2 (by decide) (by decide) (by decide) rfl rfl
      (Or.inr ⟨⟨"no", none⟩, by decide, by decide⟩)).1⟩

/-- Helper: decomposition of the trace on the full verification path with a
verdict of 1: every event is the probe, a load attempt, the extraction, a
verification event, the record insert, an incident insert, or an event of
the suspect or victim upload. -/
theorem traceOf_verify_yes_mem (url : String) (o : UrlOracle)
    (hacc : is_url_accessible o.probe = true)
    (hf : (fetch_url_with_retries o.fetch).1 = true)
    (hx : extract_main_text o.tiers ≠ "")
    (heng : o.engineOk = true)
    (hr : o.insertUrlRaises = false)
    (hai : (verify_incident url o.incident).1 = 1)
    (e : Event) (he : e ∈ traceOf url o) :
    e = Event.probe url ∨ e = Event.fetchAttempt url ∨ e = Event.extractText url ∨
    e ∈ (verify_incident url o.incident).2.2 ∨
    e = Event.dbInsertUrl (verifiedRecord url o) ∨
    (∃ i, Event.dbInsertIncident (o.getUrlId url) i = e) ∨
    e ∈ upload_suspects url o ∨ e ∈ upload_victims url o := by
  rw [traceOf_verify_path url o hacc hf hx heng hr, if_pos hai] at he
  simp only [List.mem_append, List.mem_replicate, List.mem_singleton, List.mem_map] at he
  rcases he with ((((h | h) | h) | h) | h) | ((⟨i, _, h⟩ | h) | h)
  · exact .inl h
  · exact .inr <| .inl h.2
  · exact .inr <| .inr <| .inl h
  · exact .inr <| .inr <| .inr <| .inl h
  · exact .inr <| .inr <| .inr <| .inr <| .inl h
  · exact .inr <| .inr <| .inr <| .inr <| .inr <| .inl ⟨i, h⟩
  · exact .inr <| .inr <| .inr <| .inr <| .inr <| .inr <| .inl h
  · exact .inr <| .inr <| .inr <| .inr <| .inr <| .inr <| .inr h

/-- Helper: any suspect, victim or form row found in a URL's trace carries a
name whose natural-person confirmation succeeded. -/
theorem traceOf_person_row_confirmed (url : String) (o : UrlOracle) (uid : Option Nat)
    (n : String) (e : Event)
    (hkind : e = Event.dbInsertSuspect uid n ∨ e = Event.dbInsertVictim uid n ∨
      e = Event.dbInsertSuspectForm uid n ∨ e = Event.dbInsertVictimForm uid n)
    (he : e ∈ traceOf url o) :
    confirm_natural_name (o.confirmO n) = true := by
  cases hacc : is_url_accessible o.probe with
  | false =>
      exfalso
      cases hr : o.insertUrlRaises <;>
        rcases hkind with rfl | rfl | rfl | rfl <;>
        simp [traceOf, process_url, hacc, hr, List.mem_replicate] at he
  | true =>
  cases hf : (fetch_url_with_retries o.fetch).1 with
  | false =>
      exfalso
      cases hr : o.insertUrlRaises <;>
        rcases hkind with rfl | rfl | rfl | rfl <;>
        simp [traceOf, process_url, hacc, hf, hr, List.mem_replicate] at he
  | true =>
  by_cases hx : extract_main_text o.tiers = ""
  · exfalso
    cases hr : o.insertUrlRaises <;>
      rcases hkind with rfl | rfl | rfl | rfl <;>
      simp [traceOf, process_url, hacc, hf, hx, hr, List.mem_replicate] at he
  · cases heng : o.engineOk with
    | false =>
        exfalso
        rcases hkind with rfl | rfl | rfl | rfl <;>
        simp [traceOf, process_url, hacc, hf, hx, heng, List.mem_replicate] at he
    | true =>
    cases hr : o.insertUrlRaises with
    | true =>
        exfalso
        rcases hkind with rfl | rfl | rfl | rfl <;>
        · simp [traceOf, process_url, hacc, hf, hx, heng, hr, List.mem_append,
            List.mem_replicate] at he
          rcases verify_incident_mem url o.incident _ he with h2 | h2 | h2 <;> simp at h2
    | false =>
    by_cases hai : (verify_incident url o.incident).1 = 1
    · rcases hkind with rfl | rfl | rfl | rfl <;>
      · rcases traceOf_verify_yes_mem url o hacc hf hx heng hr hai _ he with
          h | h | h | h | h | ⟨i, h⟩ | h | h <;>
        first
        | simp at h
        | (rcases verify_incident_mem url o.incident _ h with h2 | h2 | h2 <;> simp at h2)
        | (rcases upload_suspects_mem url o _ h with h2 | ⟨s, hs⟩
           · simp at h2
           · rcases suspectLoopBody_mem url (o.getUrlId url) o s _ hs with
               h3 | ⟨hc, h3 | h3 | ⟨u2, h3⟩⟩ <;>
             first
             | (simp at h3; done)
             | (simp at h3; rw [h3.2]; exact hc))
        | (rcases upload_victims_mem url o _ h with h2 | ⟨s, hs⟩
           · simp at h2
           · rcases victimLoopBody_mem url (o.getUrlId url) o s _ hs with
               h3 | ⟨hc, h3 | h3 | ⟨u2, h3⟩⟩ <;>
             first
             | (simp at h3; done)
             | (simp at h3; rw [h3.2]; exact hc))
    · exfalso
      have htr := traceOf_verify_path url o hacc hf hx heng hr
      rw [if_neg hai, List.append_nil] at htr
      rw [htr] at he
      simp only [List.mem_append, List.mem_replicate, List.mem_singleton] at he
      rcases hkind with rfl | rfl | rfl | rfl <;>
      · rcases he with (((h | h) | h) | h) | h <;>
        first
        | simp at h
        | (rcases verify_incident_mem url o.incident _ h with h2 | h2 | h2 <;> simp at h2)

/-- C2: a candidate name whose single-shot natural-person confirmation does
not answer yes (including errors and invalid replies) is never inserted as a
Suspect or Victim row and gets no SuspectForm or VictimForm row; every
persisted Suspect/Victim row or form row carries a name that passed the
confirmation gate. -/
theorem C2_natural_person_gate (url : String) (o : UrlOracle) (uid : Option Nat)
    (n : String) :
    ((Event.dbInsertSuspect uid n ∈ traceOf url o ∨
      Event.dbInsertVictim uid n ∈ traceOf url o ∨
      Event.dbInsertSuspectForm uid n ∈ traceOf url o ∨
      Event.dbInsertVictimForm uid n ∈ traceOf url o) →
      confirm_natural_name (o.confirmO n) = true) ∧
    (confirm_natural_name (o.confirmO n) = false →
      Event.dbInsertSuspect uid n ∉ traceOf url o ∧
      Event.dbInsertVictim uid n ∉ traceOf url o ∧
      Event.dbInsertSuspectForm uid n ∉ traceOf url o ∧
      Event.dbInsertVictimForm uid n ∉ traceOf url o) := by
  constructor
  · intro h
    rcases h with h | h | h | h
    · exact traceOf_person_row_confirmed url o uid n _ (Or.inl rfl) h
    · exact traceOf_person_row_confirmed url o uid n _ (Or.inr (Or.inl rfl)) h
    · exact traceOf_person_row_confirmed url o uid n _ (Or.inr (Or.inr (Or.inl rfl))) h
    · exact traceOf_person_row_confirmed url o uid n _ (Or.inr (Or.inr (Or.inr rfl))) h
  · intro hfalse
    refine ⟨fun hm => ?_, fun hm => ?_, fun hm => ?_, fun hm => ?_⟩
    · exact Bool.false_ne_true
        (hfalse ▸ traceOf_person_row_confirmed url o uid n _ (Or.inl rfl) hm)
    · exact Bool.false_ne_true
        (hfalse ▸ traceOf_person_row_confirmed url o uid n _ (Or.inr (Or.inl rfl)) hm)
    · exact Bool.false_ne_true
        (hfalse ▸ traceOf_person_row_confirmed url o uid n _ (Or.inr (Or.inr (Or.inl rfl))) hm)
    · exact Bool.false_ne_true
        (hfalse ▸ traceOf_person_row_confirmed url o uid n _ (Or.inr (Or.inr (Or.inr rfl))) hm)

/-- The yes-path environment with a confirmation query that answers "no"
for every candidate name. -/
def rejectOracle : UrlOracle :=
  { yesPathOracle with confirmO := fun _ => ConfirmOutcome.ok "no" }

/-- Witness for C2: in the yes environment the inserted suspect row's name
passed confirmation; with a rejecting confirmation no suspect row for the
candidate is ever written. -/
theorem C2_natural_person_gate_witness :
    confirm_natural_name (yesPathOracle.confirmO "John Doe") = true ∧
    Event.dbInsertSuspect (some 1) "John Doe" ∉ traceOf "u" rejectOracle :=
  ⟨(C2_natural_person_gate "u" yesPathOracle (some 1) "John Doe").1 (Or.inl (by decide)),
   ((C2_natural_person_gate "u" rejectOracle (some 1) "John Doe").2 (by decide)).1⟩

/-- Helper: when the store's `insert_url` does not raise, `process_url`
never lets an exception escape: every other failure (probe, load,
extraction, engine, chat, store failures on suspect/victim inserts) is
contained inside the function. -/
theorem process_url_ok_of_store_ok (url : String) (o : UrlOracle)
    (h : o.insertUrlRaises = false) :
    ∃ ev, process_url url o = Except.ok ev := by
  simp only [process_url, h, Bool.false_eq_true, if_false]
  repeat' split
  all_goals exact ⟨_, rfl⟩

/-- Helper: with a store whose `insert_url` never raises, the per-URL loop
of `main` reaches every URL of the batch and never aborts. -/
theorem runLoop_all_processed (oracles : String → UrlOracle)
    (h : ∀ u, (oracles u).insertUrlRaises = false) :
    ∀ urls, (runLoop oracles urls).processed = urls ∧ (runLoop oracles urls).aborted = false := by
  intro urls
  induction urls with
  | nil => exact ⟨rfl, rfl⟩
  | cons u rest ih =>
      obtain ⟨ev, hev⟩ := process_url_ok_of_store_ok u (oracles u) (h u)
      simp only [runLoop, hev]
      exact ⟨by rw [ih.1], ih.2⟩

/-- An environment where the URL is inaccessible and the store raises on the
record insert (the `db.insert_url` call at line 569, outside any `try`). -/
def abortOracle : UrlOracle := { probeFailOracle with insertUrlRaises := true }

/-- C7 counterexample: `main` has no per-URL catch-all, and the
`db.insert_url` calls on the negative paths of `process_url` are outside any
`try`; a store failure there escapes `process_url` and terminates the
per-URL loop, so the second URL of the batch is never processed. -/
theorem C7_counterexample_store_failure_aborts :
    (runMain ["a", "b"] [] (fun _ => abortOracle)).1.aborted = true ∧
    (runMain ["a", "b"] [] (fun _ => abortOracle)).1.processed = ["a"] ∧
    "b" ∉ (runMain ["a", "b"] [] (fun _ => abortOracle)).1.processed := by
  decide

/-- C7 as amended: failures of the probe, the loader, the extraction tiers,
the chat engine and the suspect/victim inserts never terminate the per-URL
loop - with a store whose `insert_url` accepts every record, the loop
processes every URL of the batch under arbitrary outcomes of all other
external calls; but an `insert_url` failure on a negative path is uncaught
(there is no per-URL catch-all in `main`) and aborts the batch. -/
theorem C7_loop_containment (oracles : String → UrlOracle)
    (h : ∀ u, (oracles u).insertUrlRaises = false) (urls : List String) :
    (runLoop oracles urls).processed = urls ∧ (runLoop oracles urls).aborted = false :=
  runLoop_all_processed oracles h urls

/-- Witness for C7 as amended: a batch of two URLs whose probes raise is
still fully traversed. -/
theorem C7_loop_containment_witness :
    (runLoop (fun _ => probeFailOracle) ["a", "b"]).processed = ["a", "b"] ∧
    (runLoop (fun _ => probeFailOracle) ["a", "b"]).aborted = false :=
  C7_loop_containment (fun _ => probeFailOracle) (fun _ => rfl) ["a", "b"]

/-- Helper: `insertedUrls` distributes over trace concatenation. -/
theorem insertedUrls_append (xs ys : List Event) :
    insertedUrls (xs ++ ys) = insertedUrls xs ++ insertedUrls ys :=
  List.filterMap_append xs ys _

/-- Helper: when the store accepts the record insert and the chat-engine
construction succeeds, `process_url` always writes a `UrlRecord` for its
URL, whichever path it takes. -/
theorem process_url_inserts_record (url : String) (o : UrlOracle)
    (h1 : o.insertUrlRaises = false) (h2 : o.engineOk = true) :
    url ∈ insertedUrls (traceOf url o) := by
  cases hacc : is_url_accessible o.probe with
  | false => simp [traceOf, process_url, hacc, h1, insertedUrls, negativeRecord]
  | true =>
  cases hf : (fetch_url_with_retries o.fetch).1 with
  | false => simp [traceOf, process_url, hacc, hf, h1, insertedUrls, negativeRecord]
  | true =>
  by_cases hx : extract_main_text o.tiers = ""
  · simp [traceOf, process_url, hacc, hf, hx, h1, insertedUrls, negativeRecord]
  · have htr := traceOf_verify_path url o hacc hf hx h2 h1
    apply List.mem_filterMap.mpr
    refine ⟨Event.dbInsertUrl (verifiedRecord url o), ?_, rfl⟩
    rw [htr]
    simp [List.mem_append]

/-- Helper: under the same conditions the loop records every URL of its
worklist in the store. -/
theorem runLoop_inserts (oracles : String → UrlOracle)
    (h1 : ∀ u, (oracles u).insertUrlRaises = false)
    (h2 : ∀ u, (oracles u).engineOk = true) :
    ∀ urls, ∀ u ∈ urls, u ∈ insertedUrls (runLoop oracles urls).events := by
  intro urls
  induction urls with
  | nil => intro u hu; cases hu
  | cons a rest ih =>
      intro u hu
      obtain ⟨ev, hev⟩ := process_url_ok_of_store_ok a (oracles a) (h1 a)
      simp only [runLoop, hev, insertedUrls_append, List.mem_append]
      rcases List.mem_cons.mp hu with rfl | hu2
      · left
        have hmem := process_url_inserts_record u (oracles u) (h1 u) (h2 u)
        rw [traceOf, hev] at hmem
        exact hmem
      · exact Or.inr (ih u hu2)

/-- The yes-path environment whose chat-engine construction (document
indexing) raises; the failure is caught by the `except` at line 633 but no
record is inserted for the URL. -/
def engineFailOracle : UrlOracle := { yesPathOracle with engineOk := false }

/-- C8 counterexample: when the chat-engine construction fails for a URL
after successful extraction, the first run completes without persisting any
record for it, so a second run over the same URL set and store processes
that URL again - not zero URLs as the claim states. -/
theorem C8_counterexample_second_run_reprocesses :
    (runMain ["u"] [] (fun _ => engineFailOracle)).1.processed = ["u"] ∧
    (runMain ["u"] (runMain ["u"] [] (fun _ => engineFailOracle)).2
        (fun _ => engineFailOracle)).1.processed = ["u"] ∧
    (runMain ["u"] (runMain ["u"] [] (fun _ => engineFailOracle)).2
        (fun _ => engineFailOracle)).1.processed ≠ [] := by
  decide

/-- Helper: a URL contained in the store never enters the worklist computed
by set-difference. -/
theorem mem_store_not_new (files store : List String) (u : String) (hu : u ∈ store) :
    u ∉ new_urls files store := by
  intro hmem
  simp only [new_urls, List.mem_filter, decide_eq_true_eq] at hmem
  exact hmem.2 (List.elem_eq_true_of_mem hu)

/-- C8 as amended: the worklist is the set-difference of the URL set against
the store, so a URL already in the store is never reprocessed; and provided
the first run persisted a record for every URL it processed (the store
accepts every record insert and the chat-engine construction succeeds for
every URL), a second run over the same URL set and the resulting store
processes zero URLs and adds no rows, hence creates no duplicate UrlRecord
rows. -/
theorem C8_dedup_idempotence (files store : List String)
    (oracles oracles2 : String → UrlOracle)
    (h1 : ∀ u, (oracles u).insertUrlRaises = false)
    (h2 : ∀ u, (oracles u).engineOk = true) :
    (∀ u ∈ store, u ∉ new_urls files store) ∧
    (runMain files (runMain files store oracles).2 oracles2).1.processed = [] ∧
    (runMain files (runMain files store oracles).2 oracles2).2
      = (runMain files store oracles).2 := by
  have hstore1 : (runMain files store oracles).2
      = store ++ insertedUrls (runLoop oracles (new_urls files store)).events := rfl
  have hempty : new_urls files (runMain files store oracles).2 = [] := by
    apply List.filter_eq_nil_iff.mpr
    intro u hu
    simp only [decide_eq_true_eq, Decidable.not_not]
    apply List.elem_eq_true_of_mem
    rw [hstore1]
    by_cases hus : u ∈ store
    · exact List.mem_append.mpr (Or.inl hus)
    · refine List.mem_append.mpr (Or.inr ?_)
      apply runLoop_inserts oracles h1 h2
      simp only [new_urls, List.mem_filter, decide_eq_true_eq]
      exact ⟨hu, fun hc => hus (List.mem_of_elem_eq_true hc)⟩
  refine ⟨mem_store_not_new files store, ?_, ?_⟩
  · show (runLoop oracles2 (new_urls files (runMain files store oracles).2)).processed = []
    rw [hempty]
    rfl
  · show (runMain files store oracles).2 ++
        insertedUrls (runLoop oracles2 (new_urls files (runMain files store oracles).2)).events
      = (runMain files store oracles).2
    rw [hempty]
    simp [runLoop, insertedUrls]

/-- Witness for C8 as amended: a stored URL stays out of the worklist, and
after a clean first run the second run's worklist is empty. -/
theorem C8_dedup_idempotence_witness :
    ("v" ∉ new_urls ["v", "w"] ["v"]) ∧
    (runMain ["v", "w"] (runMain ["v", "w"] ["v"] (fun _ => yesPathOracle)).2
        (fun _ => yesPathOracle)).1.processed = [] :=
  have h := C8_dedup_idempotence ["v", "w"] ["v"] (fun _ => yesPathOracle)
    (fun _ => yesPathOracle) (fun _ => rfl) (fun _ => rfl)
  ⟨h.1 "v" (by decide), h.2.1⟩

/-- The yes-path environment with two confirmed suspects. -/
def twoSuspectOracle : UrlOracle :=
  { yesPathOracle with suspects := fun _ => ChatOutcome.ok ⟨"yes", some ["s1", "s2"]⟩ }

/-- C9 counterexample: with two confirmed suspects the write sequence
interleaves per suspect - the first suspect's form row is written before the
second suspect's row - so the claimed phase order (all Suspect/Victim rows
before all Form rows) fails on the trace. -/
theorem C9_counterexample_form_before_second_suspect :
    Event.dbInsertSuspectForm (some 1) "s1" ∈ traceOf "u" twoSuspectOracle ∧
    Event.dbInsertSuspect (some 1) "s2" ∈ traceOf "u" twoSuspectOracle ∧
    nondecreasing ((traceOf "u" twoSuspectOracle).filterMap writePhase) = false := by
  decide

/-- Helper: events that neither write a row nor touch the store's tables;
the consistency scan ignores them. -/
def neutralEvent : Event → Bool
  | .probe _ => true
  | .fetchAttempt _ => true
  | .extractText _ => true
  | .chat _ => true
  | .dbUpdateField _ _ _ => true
  | _ => false

/-- Helper: the scan leaves its state unchanged on a neutral event. -/
theorem scanEvent_neutral (st : ScanState) (e : Event) (h : neutralEvent e = true) :
    scanEvent st e = some st := by
  cases e <;> first | (simp [neutralEvent] at h; done) | rfl

/-- Helper: the scan composes over concatenation. -/
theorem scanList_append (st : ScanState) (xs ys : List Event) :
    scanList st (xs ++ ys) = match scanList st xs with
      | none => none
      | some st2 => scanList st2 ys := by
  induction xs generalizing st with
  | nil => rfl
  | cons e rest ih =>
      simp only [List.cons_append, scanList]
      cases scanEvent st e with
      | none => rfl
      | some st2 => exact ih st2

/-- Helper: a run of neutral events leaves the scan state unchanged. -/
theorem scanList_neutral (st : ScanState) (evs : List Event)
    (h : ∀ e ∈ evs, neutralEvent e = true) : scanList st evs = some st := by
  induction evs with
  | nil => rfl
  | cons e rest ih =>
      simp only [scanList, scanEvent_neutral st e (h e (List.mem_cons_self e rest))]
      exact ih fun e2 he2 => h e2 (List.mem_cons_of_mem e he2)

/-- Helper: the verification step's events are all neutral for the scan. -/
theorem verify_incident_neutral (url : String) (o : Nat → ChatOutcome) :
    ∀ e ∈ (verify_incident url o).2.2, neutralEvent e = true := by
  intro e he
  rcases verify_incident_mem url o e he with rfl | rfl | rfl <;> rfl

/-- Helper: incident inserts are accepted once the UrlRecord is recorded and
no person row has been written yet, and leave the state unchanged. -/
theorem scanList_incidents (st : ScanState) (hurl : st.urlSeen = true)
    (hper : st.personSeen = false) (uid : Option Nat) (l : List String) :
    scanList st (l.map (Event.dbInsertIncident uid)) = some st := by
  induction l with
  | nil => rfl
  | cons i rest ih =>
      simp only [List.map_cons, scanList, scanEvent, hurl, hper]
      simpa using ih

/-- Helper: scanning one suspect's loop body succeeds from any state that
has seen the UrlRecord (the suspect row precedes its form row inside the
block), preserving that fact. -/
theorem scanList_suspectBlock (url : String) (uid : Option Nat) (o : UrlOracle) (s : String)
    (st : ScanState) (hurl : st.urlSeen = true)
    (hraise : o.insertSuspectRaises s = false) :
    ∃ st2, scanList st (suspectLoopBody url uid o s) = some st2 ∧ st2.urlSeen = true := by
  by_cases hc : confirm_natural_name (o.confirmO s) = true
  · by_cases hform : o.suspectFormOk s = true
    · rcases hg : o.getUrlId url with _ | u2 <;>
        refine ⟨{ st with personSeen := true, suspectsSeen := s :: st.suspectsSeen }, ?_, hurl⟩ <;>
        simp [suspectLoopBody, populate_suspect_forms_table, hc, hform, hg, hraise,
          scanList, scanEvent, hurl, List.contains_cons]
    · refine ⟨{ st with personSeen := true, suspectsSeen := s :: st.suspectsSeen }, ?_, hurl⟩
      simp [suspectLoopBody, populate_suspect_forms_table, hc, hform, hraise,
        scanList, scanEvent, hurl]
  · exact ⟨st, by simp [suspectLoopBody, hc, scanList, scanEvent], hurl⟩

/-- Helper: scanning one victim's loop body succeeds from any state that has
seen the UrlRecord, preserving that fact. -/
theorem scanList_victimBlock (url : String) (uid : Option Nat) (o : UrlOracle) (v : String)
    (st : ScanState) (hurl : st.urlSeen = true)
    (hraise : o.insertVictimRaises v = false) :
    ∃ st2, scanList st (victimLoopBody url uid o v) = some st2 ∧ st2.urlSeen = true := by
  by_cases hc : confirm_natural_name (o.confirmO v) = true
  · by_cases hform : o.victimFormOk v = true
    · rcases hg : o.getUrlId url with _ | u2 <;>
        refine ⟨{ st with personSeen := true, victimsSeen := v :: st.victimsSeen }, ?_, hurl⟩ <;>
        simp [victimLoopBody, populate_victim_forms_table, hc, hform, hg, hraise,
          scanList, scanEvent, hurl, List.contains_cons]
    · refine ⟨{ st with personSeen := true, victimsSeen := v :: st.victimsSeen }, ?_, hurl⟩
      simp [victimLoopBody, populate_victim_forms_table, hc, hform, hraise,
        scanList, scanEvent, hurl]
  · exact ⟨st, by simp [victimLoopBody, hc, scanList, scanEvent], hurl⟩

/-- Helper: scanning the whole suspect loop succeeds from any state that has
seen the UrlRecord, provided no suspect insert raises. -/
theorem scanList_suspectLoop (url : String) (uid : Option Nat) (o : UrlOracle)
    (hraise : ∀ s, o.insertSuspectRaises s = false) :
    ∀ (names : List String) (st : ScanState), st.urlSeen = true →
      ∃ st2, scanList st (names.flatMap (suspectLoopBody url uid o)) = some st2 ∧
        st2.urlSeen = true := by
  intro names
  induction names with
  | nil => exact fun st hurl => ⟨st, rfl, hurl⟩
  | cons s rest ih =>
      intro st hurl
      obtain ⟨st2, hscan, hurl2⟩ := scanList_suspectBlock url uid o s st hurl (hraise s)
      obtain ⟨st3, hscan3, hurl3⟩ := ih st2 hurl2
      refine ⟨st3, ?_, hurl3⟩
      rw [List.flatMap_cons, scanList_append, hscan]
      exact hscan3

/-- Helper: scanning the whole victim loop succeeds from any state that has
seen the UrlRecord, provided no victim insert raises. -/
theorem scanList_victimLoop (url : String) (uid : Option Nat) (o : UrlOracle)
    (hraise : ∀ v, o.insertVictimRaises v = false) :
    ∀ (names : List String) (st : ScanState), st.urlSeen = true →
      ∃ st2, scanList st (names.flatMap (victimLoopBody url uid o)) = some st2 ∧
        st2.urlSeen = true := by
  intro names
  induction names with
  | nil => exact fun st hurl => ⟨st, rfl, hurl⟩
  | cons v rest ih =>
      intro st hurl
      obtain ⟨st2, hscan, hurl2⟩ := scanList_victimBlock url uid o v st hurl (hraise v)
      obtain ⟨st3, hscan3, hurl3⟩ := ih st2 hurl2
      refine ⟨st3, ?_, hurl3⟩
      rw [List.flatMap_cons, scanList_append, hscan]
      exact hscan3

/-- Helper: scanning `upload_suspects` succeeds from any state that has seen
the UrlRecord. -/
theorem scanList_upload_suspects (url : String) (o : UrlOracle) (st : ScanState)
    (hurl : st.urlSeen = true)
    (hraise : ∀ s, o.insertSuspectRaises s = false) :
    ∃ st2, scanList st (upload_suspects url o) = some st2 ∧ st2.urlSeen = true := by
  have hrep : ∀ k, scanList st
      (List.replicate k (Event.chat "suspect_prompt")) = some st := fun k =>
    scanList_neutral st _ (fun e he => by rw [(List.mem_replicate.mp he).2]; rfl)
  rcases hgvr : (get_validated_response o.suspects).1 with _ | d
  · exact ⟨st, by simp only [upload_suspects, hgvr, hrep], hurl⟩
  · by_cases hyes : pyLower d.answer = "yes"
    · obtain ⟨st2, hscan, hurl2⟩ :=
        scanList_suspectLoop url (o.getUrlId url) o hraise (d.evidence.getD []) st hurl
      refine ⟨st2, ?_, hurl2⟩
      simp only [upload_suspects, hgvr, if_pos hyes, scanList_append, hrep]
      exact hscan
    · exact ⟨st, by simp only [upload_suspects, hgvr, if_neg hyes, hrep], hurl⟩

/-- Helper: scanning `upload_victims` succeeds from any state that has seen
the UrlRecord. -/
theorem scanList_upload_victims (url : String) (o : UrlOracle) (st : ScanState)
    (hurl : st.urlSeen = true)
    (hraise : ∀ v, o.insertVictimRaises v = false) :
    ∃ st2, scanList st (upload_victims url o) = some st2 ∧ st2.urlSeen = true := by
  have hrep : ∀ k, scanList st
      (List.replicate k (Event.chat "victim_prompt")) = some st := fun k =>
    scanList_neutral st _ (fun e he => by rw [(List.mem_replicate.mp he).2]; rfl)
  rcases hgvr : (get_validated_response o.victims).1 with _ | d
  · exact ⟨st, by simp only [upload_victims, hgvr, hrep], hurl⟩
  · by_cases hyes : pyLower d.answer = "yes"
    · obtain ⟨st2, hscan, hurl2⟩ :=
        scanList_victimLoop url (o.getUrlId url) o hraise (d.evidence.getD []) st hurl
      refine ⟨st2, ?_, hurl2⟩
      simp only [upload_victims, hgvr, if_pos hyes, scanList_append, hrep]
      exact hscan
    · exact ⟨st, by simp only [upload_victims, hgvr, if_neg hyes, hrep], hurl⟩

/-- Helper: an accepted scan still accepts every truncation of the trace. -/
theorem scanList_take (evs : List Event) :
    ∀ (st : ScanState), (scanList st evs).isSome = true →
      ∀ k, (scanList st (evs.take k)).isSome = true := by
  induction evs with
  | nil => intro st h k; simpa using h
  | cons e rest ih =>
      intro st h k
      cases k with
      | zero => rfl
      | succ k2 =>
          rw [List.take_succ_cons]
          simp only [scanList] at h ⊢
          cases hse : scanEvent st e with
          | none => rw [hse] at h; exact absurd h (by simp)
          | some st2 =>
              rw [hse] at h
              exact ih st2 h k2

/-- Helper: a neutral segment can be dropped from the front of a scan. -/
theorem scanList_neutral_append (st : ScanState) (xs ys : List Event)
    (h : ∀ e ∈ xs, neutralEvent e = true) :
    scanList st (xs ++ ys) = scanList st ys := by
  rw [scanList_append, scanList_neutral st xs h]

/-- C9 as amended: per URL the persistence writes are ordered as the
UrlRecord insert first, then all Incident inserts, then per-person blocks -
each Suspect/Victim row immediately followed by that person's Form row -
with all suspect blocks before all victim blocks; hence, provided the store
does not fail on suspect/victim inserts, truncating the write sequence at
any point leaves a consistent prefix: the scan finds no child row before the
UrlRecord, no Incident row after a person row, and no Form row before a row
of the same person. -/
theorem C9_write_order_consistency (url : String) (o : UrlOracle)
    (hs : ∀ s, o.insertSuspectRaises s = false)
    (hv : ∀ v, o.insertVictimRaises v = false) :
    consistentTrace (traceOf url o) = true ∧
    (∀ k, consistentTrace ((traceOf url o).take k) = true) := by
  have hone : ∀ (e : Event) (ys : List Event) (st : ScanState), neutralEvent e = true →
      scanList st ([e] ++ ys) = scanList st ys := fun e ys st he =>
    scanList_neutral_append st [e] ys (fun e2 he2 => by rw [List.mem_singleton.mp he2]; exact he)
  have hrepl : ∀ (k : Nat) (e : Event) (ys : List Event) (st : ScanState),
      neutralEvent e = true →
      scanList st (List.replicate k e ++ ys) = scanList st ys := fun k e ys st he =>
    scanList_neutral_append st _ ys (fun e2 he2 => by rw [(List.mem_replicate.mp he2).2]; exact he)
  have hmain : (scanList ⟨false, false, [], []⟩ (traceOf url o)).isSome = true := by
    cases hacc : is_url_accessible o.probe with
    | false =>
        cases hr : o.insertUrlRaises with
        | true => simp [traceOf, process_url, hacc, hr, scanList, scanEvent]
        | false => simp [traceOf, process_url, hacc, hr, scanList, scanEvent]
    | true =>
    cases hf : (fetch_url_with_retries o.fetch).1 with
    | false =>
        cases hr : o.insertUrlRaises with
        | true =>
            have htr : traceOf url o = [Event.probe url] ++
                (List.replicate (fetch_url_with_retries o.fetch).2 (Event.fetchAttempt url) ++
                  []) := by
              simp [traceOf, process_url, hacc, hf, hr]
            rw [htr, hone (Event.probe url) _ _ rfl,
              hrepl _ (Event.fetchAttempt url) _ _ rfl]
            rfl
        | false =>
            have htr : traceOf url o = [Event.probe url] ++
                (List.replicate (fetch_url_with_retries o.fetch).2 (Event.fetchAttempt url) ++
                  [Event.dbInsertUrl (negativeRecord url o.domain)]) := by
              simp [traceOf, process_url, hacc, hf, hr]
            rw [htr, hone (Event.probe url) _ _ rfl,
              hrepl _ (Event.fetchAttempt url) _ _ rfl]
            rfl
    | true =>
    by_cases hx : extract_main_text o.tiers = ""
    · cases hr : o.insertUrlRaises with
      | true =>
          have htr : traceOf url o = [Event.probe url] ++
              (List.replicate (fetch_url_with_retries o.fetch).2 (Event.fetchAttempt url) ++
                [Event.extractText url]) := by
            simp [traceOf, process_url, hacc, hf, hx, hr]
          rw [htr, hone (Event.probe url) _ _ rfl,
            hrepl _ (Event.fetchAttempt url) _ _ rfl]
          rfl
      | false =>
          have htr : traceOf url o = [Event.probe url] ++
              (List.replicate (fetch_url_with_retries o.fetch).2 (Event.fetchAttempt url) ++
                ([Event.extractText url] ++
                  [Event.dbInsertUrl (negativeRecord url o.domain)])) := by
            simp [traceOf, process_url, hacc, hf, hx, hr]
          rw [htr, hone (Event.probe url) _ _ rfl,
            hrepl _ (Event.fetchAttempt url) _ _ rfl, hone (Event.extractText url) _ _ rfl]
          rfl
    · cases heng : o.engineOk with
      | false =>
          have htr : traceOf url o = [Event.probe url] ++
              (List.replicate (fetch_url_with_retries o.fetch).2 (Event.fetchAttempt url) ++
                [Event.extractText url]) := by
            simp [traceOf, process_url, hacc, hf, hx, heng]
          rw [htr, hone (Event.probe url) _ _ rfl,
            hrepl _ (Event.fetchAttempt url) _ _ rfl]
          rfl
      | true =>
      cases hr : o.insertUrlRaises with
      | true =>
          have htr : traceOf url o = [Event.probe url] ++
              (List.replicate (fetch_url_with_retries o.fetch).2 (Event.fetchAttempt url) ++
                ([Event.extractText url] ++ (verify_incident url o.incident).2.2)) := by
            simp [traceOf, process_url, hacc, hf, hx, heng, hr]
          rw [htr, hone (Event.probe url) _ _ rfl,
            hrepl _ (Event.fetchAttempt url) _ _ rfl, hone (Event.extractText url) _ _ rfl,
            scanList_neutral _ _ (verify_incident_neutral url o.incident)]
          rfl
      | false =>
          have htr := traceOf_verify_path url o hacc hf hx heng hr
          simp only [List.append_assoc] at htr
          rw [htr, hone (Event.probe url) _ _ rfl,
            hrepl _ (Event.fetchAttempt url) _ _ rfl, hone (Event.extractText url) _ _ rfl,
            scanList_neutral_append _ _ _ (verify_incident_neutral url o.incident)]
          have hins : ∀ ys : List Event,
              scanList ⟨false, false, [], []⟩
                ([Event.dbInsertUrl (verifiedRecord url o)] ++ ys)
              = scanList ⟨true, false, [], []⟩ ys := fun ys => rfl
          rw [hins]
          by_cases hai : (verify_incident url o.incident).1 = 1
          · rw [if_pos hai]
            rw [scanList_append,
              scanList_incidents ⟨true, false, [], []⟩ rfl rfl (o.getUrlId url) _]
            show (scanList ⟨true, false, [], []⟩
              (upload_suspects url o ++ upload_victims url o)).isSome = true
            obtain ⟨st2, h2, hu2⟩ :=
              scanList_upload_suspects url o ⟨true, false, [], []⟩ rfl hs
            rw [scanList_append, h2]
            show (scanList st2 (upload_victims url o)).isSome = true
            obtain ⟨st3, h3, _⟩ := scanList_upload_victims url o st2 hu2 hv
            rw [h3]
            rfl
          · rw [if_neg hai]
            rfl
  exact ⟨hmain, fun k => scanList_take (traceOf url o) _ hmain k⟩

/-- Witness for C9 as amended: the two-suspect trace passes the consistency
scan even though its write phases interleave. -/
theorem C9_write_order_consistency_witness :
    consistentTrace (traceOf "u" twoSuspectOracle) = true :=
  (C9_write_order_consistency "u" twoSuspectOracle (fun _ => rfl) (fun _ => rfl)).1
